import Mathlib

/-!
Shallow embedding of the blogicum Django application (blog/views.py,
blog/forms.py, blog/migrations/0001_initial.py), together with theorems
checking the natural-language specification against it.

Conventions of the embedding:
* database rows are Lean structures; the database is a record of row lists;
* timestamps are integers (pub_date, and the current time passed as now);
* the request user is a Viewer: anonymous, or an authenticated user carrying
  its id and username (the Django AnonymousUser has username empty string);
* each view function becomes a pure Lean function from the viewer, the
  current time, the database and the request parameters to a Response
  (mutating views return the new database as well);
* the Django ORM queryset operations are modelled on lists: filter is
  List.filter, order_by a stable sort, annotate with Count a map that pairs
  each post with its comment count, and Paginator.get_page the clamping
  page selection implemented by Django (django/core/paginator.py with
  per_page 10, orphans 0, allow_empty_first_page true).
-/

namespace Blogicum

/-- Model of the Django auth User rows used by the app (username is unique). -/
structure User where
  id : Nat
  username : String
deriving DecidableEq, Repr

/-- Category row, from migration 0001_initial (fields the views use). -/
structure Category where
  id : Nat
  title : String
  slug : String
  is_published : Bool
deriving DecidableEq, Repr

/-- Location row, from migration 0001_initial (fields the views use). -/
structure Location where
  id : Nat
  name : String
  is_published : Bool
deriving DecidableEq, Repr

/-- Post row, from migration 0001_initial: author is a mandatory user id,
category and location are nullable foreign keys (null=True, SET_NULL). -/
structure Post where
  id : Nat
  title : String
  text : String
  pub_date : Int
  is_published : Bool
  author : Nat
  category : Option Nat
  location : Option Nat
deriving DecidableEq, Repr

/-- Comment row: text, owning author and owning post. -/
structure Comment where
  id : Nat
  text : String
  author : Nat
  post : Nat
deriving DecidableEq, Repr

/-- The relational store the views query. -/
structure DB where
  users : List User
  categories : List Category
  locations : List Location
  posts : List Post
  comments : List Comment
deriving DecidableEq, Repr

/-- The identity making the request: anonymous or an authenticated user. -/
inductive Viewer where
  | anonymous
  | user (id : Nat) (username : String)
deriving DecidableEq, Repr

/-- Model of request.user.is_authenticated. -/
def Viewer.isAuthenticated : Viewer → Bool
  | .anonymous => false
  | .user _ _ => true

/-- Model of the comparison request.user == someUser (by user id); the
Django AnonymousUser is never equal to a database user. -/
def Viewer.isUser : Viewer → Nat → Bool
  | .anonymous, _ => false
  | .user i _, j => i == j

/-- Model of request.user.username; the AnonymousUser has the empty string. -/
def Viewer.username : Viewer → String
  | .anonymous => ""
  | .user _ n => n

/-- Evaluation of the lookup category__is_published=True on one post: the
SQL join finds the category row of the post and tests its flag; a post with
a null category produces no joined row, hence fails the lookup. -/
def categoryIsPublished (db : DB) (p : Post) : Bool :=
  match p.category with
  | none => false
  | some cid =>
    match db.categories.find? (fun c => c.id == cid) with
    | none => false
    | some c => c.is_published

/-- Per-row condition of get_post_filter in blog/views.py:
pub_date__lte=time_now, is_published=True, category__is_published=True. -/
def postPassesFilter (now : Int) (db : DB) (p : Post) : Bool :=
  decide (p.pub_date ≤ now) && p.is_published && categoryIsPublished db p

/-- Model of get_post_filter() in blog/views.py: the queryset of posts
passing the three filter conditions (select_related only affects fetching,
not the result set). -/
def get_post_filter (now : Int) (db : DB) : List Post :=
  db.posts.filter (postPassesFilter now db)

/-- Stable insertion of a post into a list sorted by descending pub_date:
the inserted post goes before the first element whose pub_date is not
greater, which keeps earlier elements first among equal keys. -/
def insertByPubDateDesc (p : Post) : List Post → List Post
  | [] => [p]
  | q :: t => if q.pub_date ≤ p.pub_date then p :: q :: t else q :: insertByPubDateDesc p t

/-- Model of the queryset method order_by applied with key descending
pub_date, as a stable insertion sort. -/
def orderByPubDateDesc : List Post → List Post
  | [] => []
  | p :: t => insertByPubDateDesc p (orderByPubDateDesc t)

/-- Number of comments attached to the post with the given id, as computed
by annotate with Count of the comments relation. -/
def commentCount (db : DB) (pid : Nat) : Nat :=
  (db.comments.filter (fun c => c.post == pid)).length

/-- Model of annotate(comment_count=Count(comments)): each post is paired
with its comment count. -/
def annotateComments (db : DB) (l : List Post) : List (Post × Nat) :=
  l.map (fun p => (p, commentCount db p.id))

/-- PAGINATOR_VALUE = 10 in blog/views.py. -/
def PAGINATOR_VALUE : Nat := 10

/-- Decimal digit value of a character, none when not a digit. -/
def digitVal (c : Char) : Option Nat :=
  if firstDigit ≤ c ∧ c ≤ lastDigit then some (c.toNat - firstDigit.toNat) else none
where
  firstDigit : Char := '0'
  lastDigit : Char := '9'

/-- Value of a nonempty all-digit character list, none otherwise. -/
def digitsVal : List Char → Option Nat
  | [] => none
  | [c] => digitVal c
  | c :: t => match digitVal c, digitsVal t with
    | some d, some n => some (d * 10 ^ t.length + n)
    | _, _ => none

/-- Model of the int() conversion Django applies to the page parameter:
an optional minus sign followed by decimal digits, anything else fails. -/
def parseIntStr (s : String) : Option Int :=
  match s.data with
  | '-' :: rest => (digitsVal rest).map (fun n => -(n : Int))
  | cs => (digitsVal cs).map (fun n => (n : Int))

/-- Page parameter of the request: absent, or a string to be parsed. -/
def parsePage (param : Option String) : Option Int :=
  param.bind parseIntStr

/-- Django Paginator.num_pages with per_page PAGINATOR_VALUE, orphans 0
and allow_empty_first_page: ceil(max 1 count / per_page). -/
def numPages (count : Nat) : Nat :=
  (max 1 count + PAGINATOR_VALUE - 1) / PAGINATOR_VALUE

/-- The object list of page n (1-based): items (n-1)*10 to n*10-1. -/
def pageSlice (l : List α) (n : Nat) : List α :=
  (l.drop ((n - 1) * PAGINATOR_VALUE)).take PAGINATOR_VALUE

/-- Django Paginator.get_page number selection: a parameter that is not an
integer becomes page 1; an integer below 1 or above num_pages becomes the
last page (validate_number raises EmptyPage in both cases and get_page
answers with num_pages). -/
def getPageNumber (count : Nat) (param : Option String) : Nat :=
  match parsePage param with
  | none => 1
  | some k =>
      if k < 1 then numPages count
      else if (numPages count : Int) < k then numPages count
      else k.toNat

/-- Model of Paginator(l, PAGINATOR_VALUE).get_page(param): the object
list of the selected page. -/
def getPage (l : List α) (param : Option String) : List α :=
  pageSlice l (getPageNumber l.length param)

/-- The responses a modelled view can produce. -/
inductive Response where
  | redirectLogin
  | redirectDetail (postId : Nat)
  | redirectProfile (username : String)
  | redirectIndex
  | notFound
  | renderIndex (page : List (Post × Nat))
  | renderDetail (post : Post) (comments : List Comment)
  | renderCategory (category : Category) (page : List (Post × Nat))
  | renderProfile (profile : User) (page : List (Post × Nat))
deriving DecidableEq, Repr

/-- The post_list built by index: get_post_filter, ordered by descending
pub_date, annotated with comment counts. -/
def indexPostList (now : Int) (db : DB) : List (Post × Nat) :=
  annotateComments db (orderByPubDateDesc (get_post_filter now db))

/-- Model of the index view: login_required, then the paginated post_list. -/
def index (viewer : Viewer) (now : Int) (db : DB) (page : Option String) : Response :=
  if viewer.isAuthenticated then
    .renderIndex (getPage (indexPostList now db) page)
  else .redirectLogin

/-- Model of the post_detail view: login_required, then
get_object_or_404(get_post_filter(), id=id) and the comments of the post. -/
def post_detail (viewer : Viewer) (now : Int) (db : DB) (id : Nat) : Response :=
  if viewer.isAuthenticated then
    match (get_post_filter now db).find? (fun p => p.id == id) with
    | none => .notFound
    | some p => .renderDetail p (db.comments.filter (fun c => c.post == id))
  else .redirectLogin

/-- The post_list built by category_posts for a category id: the filtered
queryset restricted to that category, ordered and annotated. -/
def categoryPostList (now : Int) (db : DB) (cid : Nat) : List (Post × Nat) :=
  annotateComments db
    (orderByPubDateDesc ((get_post_filter now db).filter (fun p => p.category == some cid)))

/-- Model of the category_posts view: login_required, then
get_object_or_404 on the category by slug with is_published=True, then the
paginated posts of the category. -/
def category_posts (viewer : Viewer) (now : Int) (db : DB) (slug : String)
    (page : Option String) : Response :=
  if viewer.isAuthenticated then
    match db.categories.find? (fun c => c.slug == slug) with
    | none => .notFound
    | some c =>
      if c.is_published then
        .renderCategory c (getPage (categoryPostList now db c.id) page)
      else .notFound
  else .redirectLogin

/-- The queryset chosen by get_profile: all posts when the request user's
username equals the profile slug, the filtered queryset otherwise. -/
def profileQuerySet (viewer : Viewer) (now : Int) (db : DB) (slug : String) : List Post :=
  if viewer.username == slug then db.posts else get_post_filter now db

/-- The post_list built by get_profile for the profile user id: the chosen
queryset restricted to posts authored by that user, ordered and annotated. -/
def profilePostList (viewer : Viewer) (now : Int) (db : DB) (slug : String)
    (uid : Nat) : List (Post × Nat) :=
  annotateComments db
    (orderByPubDateDesc ((profileQuerySet viewer now db slug).filter (fun p => p.author == uid)))

/-- Model of the get_profile view (no login_required in the source):
get_object_or_404 on the user by username, then the paginated post_list. -/
def get_profile (viewer : Viewer) (now : Int) (db : DB) (slug : String)
    (page : Option String) : Response :=
  match db.users.find? (fun u => u.username == slug) with
  | none => .notFound
  | some u => .renderProfile u (getPage (profilePostList viewer now db slug u.id) page)

/-- Data submitted to PostForm. The form is built from the Post model with
exclude = (author,): the author field below is what an attacker may submit
for author; the form never reads it. -/
structure PostFormData where
  title : String
  text : String
  pub_date : Int
  category : Option Nat
  location : Option Nat
  is_published : Bool
  author : Option Nat
deriving DecidableEq, Repr

/-- Effect of a valid PostForm on its instance: every model field except
the excluded author is taken from the submitted data. -/
def postFormApply (fd : PostFormData) (inst : Post) : Post :=
  { inst with
    title := fd.title
    text := fd.text
    pub_date := fd.pub_date
    is_published := fd.is_published
    category := fd.category
    location := fd.location }

/-- Data submitted to CommentForm (fields = (text,)); the author field is
what an attacker may submit for author; the form never reads it. -/
structure CommentFormData where
  text : String
  author : Option Nat
deriving DecidableEq, Repr

/-- Fresh primary key for a created post. -/
def nextPostId (db : DB) : Nat := (db.posts.map Post.id).foldr max 0 + 1

/-- Fresh primary key for a created comment. -/
def nextCommentId (db : DB) : Nat := (db.comments.map Comment.id).foldr max 0 + 1

/-- A new unsaved Post instance, before the form fields are applied (the
author value here is a placeholder that form_valid always overwrites). -/
def blankPost (db : DB) : Post :=
  { id := nextPostId db
    title := ""
    text := ""
    pub_date := 0
    is_published := true
    author := 0
    category := none
    location := none }

/-- Modelled from the spec: blog/models.py is not under src. Per the spec
data model, a Comment's post is a many-to-one key that cascades on Post
deletion, and the external interface lists the delete policy CASCADE for
Post to Comment; deleting a post therefore also deletes every comment
whose post is that post. -/
def deletePost (db : DB) (pid : Nat) : DB :=
  { db with
    posts := db.posts.filter (fun p => p.id != pid)
    comments := db.comments.filter (fun c => c.post != pid) }

/-- Category deletion under the SET_NULL policy of migration 0001_initial:
the category row disappears and every post referencing it keeps all other
fields and gets a null category. -/
def deleteCategory (db : DB) (cid : Nat) : DB :=
  { db with
    categories := db.categories.filter (fun c => c.id != cid)
    posts := db.posts.map
      (fun p => if p.category == some cid then { p with category := none } else p) }

/-- Location deletion under the SET_NULL policy of migration 0001_initial. -/
def deleteLocation (db : DB) (lid : Nat) : DB :=
  { db with
    locations := db.locations.filter (fun l => l.id != lid)
    posts := db.posts.map
      (fun p => if p.location == some lid then { p with location := none } else p) }

/-- Model of PostCreateView: LoginRequiredMixin redirects anonymous users
to login; otherwise the valid form saves a new post whose author form_valid
set to request.user, then redirects to the user's profile. -/
def postCreateView (viewer : Viewer) (db : DB) (fd : PostFormData) : Response × DB :=
  match viewer with
  | .anonymous => (.redirectLogin, db)
  | .user uid uname =>
      let inst := { postFormApply fd (blankPost db) with author := uid }
      (.redirectProfile uname, { db with posts := db.posts ++ [inst] })

/-- Model of PostUpdateView: its dispatch fetches the post (404 when
absent) and redirects any request whose user differs from the author to
the detail view before super().dispatch runs the LoginRequiredMixin check;
an authenticated author saves the form (author overwritten with
request.user) and is redirected to the detail view. -/
def postUpdateView (viewer : Viewer) (db : DB) (pk : Nat) (fd : PostFormData) :
    Response × DB :=
  match db.posts.find? (fun p => p.id == pk) with
  | none => (.notFound, db)
  | some publication =>
      if !(viewer.isUser publication.author) then (.redirectDetail pk, db)
      else match viewer with
        | .anonymous => (.redirectLogin, db)
        | .user uid _ =>
            let inst := { postFormApply fd publication with author := uid }
            (.redirectDetail pk,
             { db with posts := db.posts.map (fun p => if p.id == pk then inst else p) })

/-- Model of PostDeleteView: dispatch fetches the post, redirects a
non-author to the detail view, then LoginRequiredMixin checks
authentication; on the POST of an authenticated author the post is deleted
and the response redirects to index (success_url). -/
def postDeleteView (viewer : Viewer) (db : DB) (pk : Nat) : Response × DB :=
  match db.posts.find? (fun p => p.id == pk) with
  | none => (.notFound, db)
  | some publication =>
      if !(viewer.isUser publication.author) then (.redirectDetail pk, db)
      else if viewer.isAuthenticated then (.redirectIndex, deletePost db pk)
      else (.redirectLogin, db)

/-- Model of CommentCreateView: LoginRequiredMixin redirects anonymous
users to login; form_valid fetches the post (404 when absent), sets the
comment's author to request.user and its post to the fetched post, saves,
and redirects to the post's detail view. -/
def commentCreateView (viewer : Viewer) (db : DB) (pk : Nat) (fd : CommentFormData) :
    Response × DB :=
  match viewer with
  | .anonymous => (.redirectLogin, db)
  | .user uid _ =>
      match db.posts.find? (fun p => p.id == pk) with
      | none => (.notFound, db)
      | some _ =>
          let c : Comment := { id := nextCommentId db, text := fd.text, author := uid, post := pk }
          (.redirectDetail pk, { db with comments := db.comments ++ [c] })

/-- Model of CommentUpdateView: dispatch fetches the comment (404 when
absent) and redirects any request whose user differs from the comment's
author to the detail view of the comment's post, before the
LoginRequiredMixin check; an authenticated author saves the form (only the
text field) and is redirected using the post_id url argument. -/
def commentUpdateView (viewer : Viewer) (db : DB) (pk : Nat) (post_id : Nat)
    (fd : CommentFormData) : Response × DB :=
  match db.comments.find? (fun c => c.id == pk) with
  | none => (.notFound, db)
  | some comment =>
      if !(viewer.isUser comment.author) then (.redirectDetail comment.post, db)
      else if viewer.isAuthenticated then
        (.redirectDetail post_id,
         { db with comments := db.comments.map (fun c => if c.id == pk then { c with text := fd.text } else c) })
      else (.redirectLogin, db)

/-- Model of CommentDeleteView: dispatch fetches the comment (404 when
absent) and redirects a non-author to the detail view of the post_id url
argument, before the LoginRequiredMixin check; an authenticated author
deletes the comment and is redirected to index (success_url). -/
def commentDeleteView (viewer : Viewer) (db : DB) (pk : Nat) (post_id : Nat) :
    Response × DB :=
  match db.comments.find? (fun c => c.id == pk) with
  | none => (.notFound, db)
  | some comment =>
      if !(viewer.isUser comment.author) then (.redirectDetail post_id, db)
      else if viewer.isAuthenticated then
        (.redirectIndex, { db with comments := db.comments.filter (fun c => c.id != pk) })
      else (.redirectLogin, db)

/-- Visibility predicate written from the spec words (component 4.1): true
iff the publication invariant holds (published, not future-dated, and the
category, when present, is published) or the viewer is the post's author.
Kept for comparison with the predicate the source actually uses. -/
def specVisible (viewer : Viewer) (now : Int) (db : DB) (p : Post) : Bool :=
  (p.is_published && decide (p.pub_date ≤ now) &&
    (match p.category with
     | none => true
     | some cid =>
       match db.categories.find? (fun c => c.id == cid) with
       | none => true
       | some c => c.is_published))
  || viewer.isUser p.author

/-- Membership in the stable insertion is membership in the original list
or being the inserted post. -/
theorem mem_insertByPubDateDesc (p a : Post) (l : List Post) :
    a ∈ insertByPubDateDesc p l ↔ a = p ∨ a ∈ l := by
  induction l with
  | nil => simp [insertByPubDateDesc]
  | cons q t ih =>
    simp only [insertByPubDateDesc]
    split
    · simp [List.mem_cons]
    · rw [List.mem_cons, ih, List.mem_cons]
      tauto

/-- Inserting into a descending-sorted list keeps it descending-sorted. -/
theorem pairwise_insertByPubDateDesc (p : Post) (l : List Post)
    (h : l.Pairwise (fun a b => b.pub_date ≤ a.pub_date)) :
    (insertByPubDateDesc p l).Pairwise (fun a b => b.pub_date ≤ a.pub_date) := by
  induction l with
  | nil => simp [insertByPubDateDesc]
  | cons q t ih =>
    simp only [insertByPubDateDesc]
    rcases h with _ | ⟨hq, ht⟩
    split
    · refine List.Pairwise.cons ?_ (List.Pairwise.cons hq ht)
      intro b hb
      rcases List.mem_cons.mp hb with rfl | hb
      · omega
      · have := hq b hb
        omega
    · refine List.Pairwise.cons ?_ (ih ht)
      intro b hb
      rcases (mem_insertByPubDateDesc p b t).mp hb with rfl | hb
      · omega
      · exact hq b hb

/-- The modelled order_by produces a descending-sorted list. -/
theorem pairwise_orderByPubDateDesc (l : List Post) :
    (orderByPubDateDesc l).Pairwise (fun a b => b.pub_date ≤ a.pub_date) := by
  induction l with
  | nil => simp [orderByPubDateDesc]
  | cons p t ih => exact pairwise_insertByPubDateDesc p (orderByPubDateDesc t) ih

/-- The modelled order_by neither adds nor removes posts. -/
theorem mem_orderByPubDateDesc (a : Post) (l : List Post) :
    a ∈ orderByPubDateDesc l ↔ a ∈ l := by
  induction l with
  | nil => simp [orderByPubDateDesc]
  | cons p t ih =>
    rw [orderByPubDateDesc, mem_insertByPubDateDesc, ih, List.mem_cons]

/-- Membership in the annotated list, in terms of the underlying posts. -/
theorem mem_annotateComments (db : DB) (l : List Post) (x : Post × Nat) :
    x ∈ annotateComments db l ↔ x.1 ∈ l ∧ x.2 = commentCount db x.1.id := by
  constructor
  · intro hx
    rcases List.mem_map.mp hx with ⟨p, hp, he⟩
    cases he
    exact ⟨hp, rfl⟩
  · rintro ⟨h1, h2⟩
    refine List.mem_map.mpr ⟨x.1, h1, ?_⟩
    cases x
    simp_all

/-- Every annotated entry carries the comment count of its post. -/
theorem annotateComments_count (db : DB) (l : List Post) :
    ∀ x ∈ annotateComments db l, x.2 = commentCount db x.1.id := by
  intro x hx
  exact ((mem_annotateComments db l x).mp hx).2

/-- Annotated lists inherit descending sortedness from their posts. -/
theorem pairwise_annotateComments (db : DB) (l : List Post)
    (h : l.Pairwise (fun a b => b.pub_date ≤ a.pub_date)) :
    (annotateComments db l).Pairwise (fun a b => b.1.pub_date ≤ a.1.pub_date) := by
  refine List.pairwise_map.mpr ?_
  exact h.imp (fun hab => hab)

/-- A page slice is a sublist of the underlying list. -/
theorem pageSlice_sublist (l : List α) (n : Nat) : (pageSlice l n).Sublist l :=
  ((l.drop ((n - 1) * PAGINATOR_VALUE)).take_sublist PAGINATOR_VALUE).trans
    (l.drop_sublist ((n - 1) * PAGINATOR_VALUE))

/-- num_pages is at least one. -/
theorem numPages_pos (count : Nat) : 1 ≤ numPages count := by
  unfold numPages PAGINATOR_VALUE
  omega

/-- The selected page number is always between 1 and num_pages. -/
theorem getPageNumber_bounds (count : Nat) (param : Option String) :
    1 ≤ getPageNumber count param ∧ getPageNumber count param ≤ numPages count := by
  have hnp := numPages_pos count
  unfold getPageNumber
  cases parsePage param with
  | none => exact ⟨le_refl 1, hnp⟩
  | some k =>
    simp only
    split
    · exact ⟨hnp, le_refl _⟩
    · split
      · exact ⟨hnp, le_refl _⟩
      · omega

/-- Every page but the last holds exactly PAGINATOR_VALUE items. -/
theorem pageSlice_length_of_lt (l : List α) (n : Nat) (h1 : 1 ≤ n)
    (h2 : n < numPages l.length) : (pageSlice l n).length = PAGINATOR_VALUE := by
  unfold pageSlice
  rw [List.length_take, List.length_drop]
  unfold numPages PAGINATOR_VALUE at h2
  unfold PAGINATOR_VALUE
  omega

/-- Characterisation of the category__is_published=True lookup: it demands
an existing, published category row. -/
theorem categoryIsPublished_iff (db : DB) (p : Post) :
    categoryIsPublished db p = true ↔
      ∃ cid c2, p.category = some cid ∧
        db.categories.find? (fun c => c.id == cid) = some c2 ∧ c2.is_published = true := by
  unfold categoryIsPublished
  cases hc : p.category with
  | none => simp
  | some cid =>
    cases hf : db.categories.find? (fun c => c.id == cid) with
    | none => simp [hf]
    | some c2 => simp [hf]

/-- Username fixture. -/
def aliceName : String := "alice"

/-- Username fixture. -/
def bobName : String := "bob"

/-- User fixture. -/
def alice : User := ⟨1, "alice"⟩

/-- An unpublished post authored by alice. -/
def draftPost : Post :=
  { id := 1
    title := "draft"
    text := "body"
    pub_date := 0
    is_published := false
    author := 1
    category := none
    location := none }

/-- A store holding only alice and her unpublished post. -/
def dbDraft : DB := ⟨[alice], [], [], [draftPost], []⟩

/-- C1, counterexample: the spec predicate (publication invariant OR viewer
is the author) answers true for alice viewing her own unpublished post, but
the filter the listing and detail views actually use answers false, and the
detail view answers 404 to alice, so the claimed author exception does not
exist in the code. -/
theorem C1_counterexample :
    specVisible (Viewer.user 1 aliceName) 10 dbDraft draftPost = true ∧
    draftPost ∈ dbDraft.posts ∧
    postPassesFilter 10 dbDraft draftPost = false ∧
    post_detail (Viewer.user 1 aliceName) 10 dbDraft 1 = Response.notFound := by
  decide

/-- C1, amended: the predicate used by the listing and detail views is
viewer-independent — a post passes iff it is published, not future-dated,
and carries a category whose row is published (so the author exception does
not apply anywhere it is claimed to); consequently the detail view answers
404 for a post failing the filter even when the requesting user is its
author. -/
theorem C1_amended (now : Int) (db : DB) (p : Post) :
    (p ∈ get_post_filter now db ↔
      p ∈ db.posts ∧ p.is_published = true ∧ p.pub_date ≤ now ∧
        ∃ cid c2, p.category = some cid ∧
          db.categories.find? (fun c => c.id == cid) = some c2 ∧ c2.is_published = true)
    ∧ (∀ uid uname, (∀ q ∈ db.posts, q.id = p.id → postPassesFilter now db q = false) →
        post_detail (Viewer.user uid uname) now db p.id = Response.notFound) := by
  constructor
  · rw [get_post_filter, List.mem_filter]
    unfold postPassesFilter
    simp only [Bool.and_eq_true, decide_eq_true_eq, categoryIsPublished_iff]
    tauto
  · intro uid uname hall
    have hnone : (get_post_filter now db).find? (fun q => q.id == p.id) = none := by
      rw [List.find?_eq_none]
      intro q hq hid
      rw [get_post_filter, List.mem_filter] at hq
      have hfalse := hall q hq.1 (by simpa using hid)
      rw [hfalse] at hq
      exact Bool.false_ne_true hq.2
    simp [post_detail, Viewer.isAuthenticated, hnone]

/-- C1, witness: a second user requesting the detail view of the
unpublished post gets 404. -/
theorem C1_amended_witness :
    post_detail (Viewer.user 2 bobName) 10 dbDraft draftPost.id = Response.notFound :=
  (C1_amended 10 dbDraft draftPost).2 2 bobName (by decide)

/-- C2, counterexample: the claim promises that the author of an
unpublished post can open its detail view, but the code answers 404 to
alice for her own unpublished post. -/
theorem C2_counterexample :
    draftPost.is_published = false ∧ draftPost ∈ dbDraft.posts ∧
    draftPost.author = alice.id ∧
    post_detail (Viewer.user 1 aliceName) 10 dbDraft draftPost.id = Response.notFound := by
  decide

/-- C2, amended: an unpublished or future-dated post appears in no global
listing, no category listing, and no profile listing whose slug differs
from the requesting user's username, and its detail view is never rendered
for any viewer (the author included); the post does appear in its author's
own profile listing. -/
theorem C2_amended (now : Int) (db : DB) (p : Post) (hp : p ∈ db.posts)
    (hbad : p.is_published = false ∨ now < p.pub_date) :
    ((p, commentCount db p.id) ∉ indexPostList now db)
    ∧ (∀ cid, (p, commentCount db p.id) ∉ categoryPostList now db cid)
    ∧ (∀ viewer slug uid, viewer.username ≠ slug →
        (p, commentCount db p.id) ∉ profilePostList viewer now db slug uid)
    ∧ (∀ viewer cs, post_detail viewer now db p.id ≠ Response.renderDetail p cs)
    ∧ (∀ uname, (p, commentCount db p.id) ∈
        profilePostList (Viewer.user p.author uname) now db uname p.author) := by
  have hfail : postPassesFilter now db p = false := by
    unfold postPassesFilter
    rcases hbad with h | h
    · rw [h]
      simp
    · have hdec : decide (p.pub_date ≤ now) = false := by
        simp only [decide_eq_false_iff_not]
        omega
      rw [hdec]
      simp
  have hnotin : p ∉ get_post_filter now db := by
    intro hmem
    rw [get_post_filter, List.mem_filter, hfail] at hmem
    exact Bool.false_ne_true hmem.2
  refine ⟨?_, ?_, ?_, ?_, ?_⟩
  · intro hmem
    rw [indexPostList, mem_annotateComments] at hmem
    obtain ⟨h1, _⟩ := hmem
    rw [mem_orderByPubDateDesc] at h1
    exact hnotin h1
  · intro cid hmem
    rw [categoryPostList, mem_annotateComments] at hmem
    obtain ⟨h1, _⟩ := hmem
    rw [mem_orderByPubDateDesc, List.mem_filter] at h1
    exact hnotin h1.1
  · intro viewer slug uid hne hmem
    rw [profilePostList, mem_annotateComments] at hmem
    obtain ⟨h1, _⟩ := hmem
    rw [mem_orderByPubDateDesc, List.mem_filter] at h1
    rw [profileQuerySet, if_neg (by simpa using hne)] at h1
    exact hnotin h1.1
  · intro viewer cs heq
    unfold post_detail at heq
    cases viewer with
    | anonymous => cases heq
    | user uid uname =>
      rw [show (Viewer.user uid uname).isAuthenticated = true from rfl, if_pos rfl] at heq
      cases hf : (get_post_filter now db).find? (fun q => q.id == p.id) with
      | none => rw [hf] at heq; cases heq
      | some q =>
        rw [hf] at heq
        have hq := List.mem_of_find?_eq_some hf
        injection heq with h1 h2
        rw [h1] at hq
        exact hnotin hq
  · intro uname
    rw [profilePostList, mem_annotateComments]
    refine ⟨?_, rfl⟩
    rw [mem_orderByPubDateDesc, List.mem_filter]
    refine ⟨?_, by simp⟩
    rw [profileQuerySet, if_pos (by simp [Viewer.username])]
    exact hp

/-- C2, witness: in the concrete store, alice's unpublished post is absent
from the global listing, its detail view is not rendered to alice, yet it
is present in alice's own profile listing. -/
theorem C2_amended_witness :
    ((draftPost, commentCount dbDraft draftPost.id) ∉ indexPostList 10 dbDraft)
    ∧ post_detail (Viewer.user 1 aliceName) 10 dbDraft draftPost.id ≠
        Response.renderDetail draftPost []
    ∧ (draftPost, commentCount dbDraft draftPost.id) ∈
        profilePostList (Viewer.user 1 aliceName) 10 dbDraft aliceName 1 := by
  have h := C2_amended 10 dbDraft draftPost (by decide) (Or.inl (by decide))
  exact ⟨h.1, h.2.2.2.1 (Viewer.user 1 aliceName) [], h.2.2.2.2 aliceName⟩

/-- A published, past-dated post with no category, authored by alice. -/
def nocatPost : Post :=
  { id := 2
    title := "nocat"
    text := "body"
    pub_date := 0
    is_published := true
    author := 1
    category := none
    location := none }

/-- A store holding only alice and her category-less published post. -/
def dbNoCat : DB := ⟨[alice], [], [], [nocatPost], []⟩

/-- C3, counterexample: a published, past-dated post with a null category
is claimed to pass the visibility filter and appear in the global listing;
in the code the lookup category__is_published=True eliminates it, so the
filter result and the global listing are both empty. -/
theorem C3_counterexample :
    nocatPost.category = none ∧ nocatPost.is_published = true ∧
    nocatPost.pub_date ≤ (10 : Int) ∧ nocatPost ∈ dbNoCat.posts ∧
    nocatPost ∉ get_post_filter 10 dbNoCat ∧
    indexPostList 10 dbNoCat = [] := by
  decide

/-- C3, amended: a post whose category reference is null never passes the
visibility filter (the category__is_published=True join requires a
category row to be present and published), so such posts are absent from
the filtered listings whatever their is_published flag and pub_date. -/
theorem C3_amended (now : Int) (db : DB) (p : Post) (hc : p.category = none) :
    p ∉ get_post_filter now db ∧ ∀ k, (p, k) ∉ indexPostList now db := by
  have hfail : postPassesFilter now db p = false := by
    unfold postPassesFilter categoryIsPublished
    rw [hc]
    simp
  constructor
  · intro hmem
    rw [get_post_filter, List.mem_filter, hfail] at hmem
    exact Bool.false_ne_true hmem.2
  · intro k hmem
    rw [indexPostList, mem_annotateComments] at hmem
    obtain ⟨h1, _⟩ := hmem
    rw [mem_orderByPubDateDesc] at h1
    rw [get_post_filter, List.mem_filter, hfail] at h1
    exact Bool.false_ne_true h1.2

/-- C3, witness: the concrete category-less post is filtered out. -/
theorem C3_amended_witness :
    nocatPost ∉ get_post_filter 10 dbNoCat ∧
    (nocatPost, 0) ∉ indexPostList 10 dbNoCat := by
  have h := C3_amended 10 dbNoCat nocatPost rfl
  exact ⟨h.1, h.2 0⟩

/-- Form data fixture; the submitted author value names user 2. -/
def fd0 : PostFormData :=
  { title := "x"
    text := "y"
    pub_date := 5
    category := none
    location := none
    is_published := true
    author := some 2 }

/-- Comment form data fixture; the submitted author value names user 2. -/
def cfd0 : CommentFormData := { text := "hi", author := some 2 }

/-- C4: a POST to the edit view of an existing post by an authenticated
user who is not its author is answered with a redirect to the post's
detail view and leaves the database (hence every field of the post)
unchanged. -/
theorem C4_nonauthor_edit_redirects (db : DB) (pk : Nat) (fd : PostFormData)
    (uid : Nat) (uname : String) (p : Post)
    (hfind : db.posts.find? (fun q => q.id == pk) = some p)
    (hne : p.author ≠ uid) :
    postUpdateView (Viewer.user uid uname) db pk fd = (Response.redirectDetail pk, db) := by
  unfold postUpdateView
  rw [hfind]
  dsimp only
  have hu : (Viewer.user uid uname).isUser p.author = false := by
    simp only [Viewer.isUser, beq_eq_false_iff_ne, ne_eq]
    omega
  rw [hu]
  simp

/-- C4, witness: bob editing alice's post is redirected to the detail view
and the store is unchanged. -/
theorem C4_witness :
    postUpdateView (Viewer.user 2 bobName) dbDraft 1 fd0 =
      (Response.redirectDetail 1, dbDraft) :=
  C4_nonauthor_edit_redirects dbDraft 1 fd0 2 bobName draftPost (by decide) (by decide)

/-- C5, counterexample: the claim calls the global listing, the detail
view and the category listing anonymous-readable, but each of the three
views carries login_required and answers an anonymous request with a
redirect to the login view. -/
theorem C5_counterexample :
    index Viewer.anonymous 10 dbDraft none = Response.redirectLogin ∧
    post_detail Viewer.anonymous 10 dbDraft 1 = Response.redirectLogin ∧
    category_posts Viewer.anonymous 10 dbDraft bobName none = Response.redirectLogin := by
  decide

/-- C5, amended: every read endpoint except the profile listing requires
authentication — the global listing, the detail view and the category
listing redirect every anonymous request to login, while the profile
listing (the one view without login_required) never redirects to login. -/
theorem C5_amended (now : Int) (db : DB) (page page2 : Option String) (i : Nat)
    (slug slug2 : String) :
    index Viewer.anonymous now db page = Response.redirectLogin ∧
    post_detail Viewer.anonymous now db i = Response.redirectLogin ∧
    category_posts Viewer.anonymous now db slug page = Response.redirectLogin ∧
    get_profile Viewer.anonymous now db slug2 page2 ≠ Response.redirectLogin := by
  refine ⟨rfl, rfl, rfl, ?_⟩
  unfold get_profile
  cases hf : db.users.find? (fun u => u.username == slug2) with
  | none => simp
  | some u => simp

/-- C6, counterexample: an anonymous POST to the edit view of an existing
post is answered with a redirect to the post's detail view, not with the
claimed redirect to the login view (the author comparison in dispatch runs
before the LoginRequiredMixin check and the anonymous user never equals
the author). -/
theorem C6_counterexample :
    (postUpdateView Viewer.anonymous dbDraft 1 fd0).1 = Response.redirectDetail 1 ∧
    Response.redirectDetail 1 ≠ Response.redirectLogin := by
  decide

/-- C6, amended: an anonymous create request (post or comment) is
redirected to login; an anonymous edit or delete request is answered with
404 when the object is absent and otherwise with a redirect to a detail
view; in every case the database is unchanged, so no persistence step is
reached. -/
theorem C6_amended (db : DB) (fd : PostFormData) (cfd : CommentFormData)
    (pk post_id : Nat) :
    postCreateView Viewer.anonymous db fd = (Response.redirectLogin, db)
    ∧ commentCreateView Viewer.anonymous db pk cfd = (Response.redirectLogin, db)
    ∧ ((postUpdateView Viewer.anonymous db pk fd).2 = db ∧
        ((postUpdateView Viewer.anonymous db pk fd).1 = Response.notFound ∨
         (postUpdateView Viewer.anonymous db pk fd).1 = Response.redirectDetail pk))
    ∧ ((postDeleteView Viewer.anonymous db pk).2 = db ∧
        ((postDeleteView Viewer.anonymous db pk).1 = Response.notFound ∨
         (postDeleteView Viewer.anonymous db pk).1 = Response.redirectDetail pk))
    ∧ ((commentUpdateView Viewer.anonymous db pk post_id cfd).2 = db ∧
        ((commentUpdateView Viewer.anonymous db pk post_id cfd).1 = Response.notFound ∨
         ∃ j, (commentUpdateView Viewer.anonymous db pk post_id cfd).1 =
           Response.redirectDetail j))
    ∧ ((commentDeleteView Viewer.anonymous db pk post_id).2 = db ∧
        ((commentDeleteView Viewer.anonymous db pk post_id).1 = Response.notFound ∨
         (commentDeleteView Viewer.anonymous db pk post_id).1 =
           Response.redirectDetail post_id)) := by
  refine ⟨rfl, rfl, ?_, ?_, ?_, ?_⟩
  · unfold postUpdateView
    cases hf : db.posts.find? (fun p => p.id == pk) with
    | none => exact ⟨rfl, Or.inl rfl⟩
    | some publication => exact ⟨rfl, Or.inr rfl⟩
  · unfold postDeleteView
    cases hf : db.posts.find? (fun p => p.id == pk) with
    | none => exact ⟨rfl, Or.inl rfl⟩
    | some publication => exact ⟨rfl, Or.inr rfl⟩
  · unfold commentUpdateView
    cases hf : db.comments.find? (fun c => c.id == pk) with
    | none => exact ⟨rfl, Or.inl rfl⟩
    | some comment => exact ⟨rfl, Or.inr ⟨comment.post, rfl⟩⟩
  · unfold commentDeleteView
    cases hf : db.comments.find? (fun c => c.id == pk) with
    | none => exact ⟨rfl, Or.inl rfl⟩
    | some comment => exact ⟨rfl, Or.inr rfl⟩

/-- List fixture for pagination: twenty-five items, three pages. -/
def sampleList : List Nat := List.range 25

/-- Page parameter fixture beyond the last page. -/
def page99 : String := "99"

/-- Page parameter fixture that is not a number. -/
def pageBad : String := "abc"

/-- C7: for every base list and page parameter the paginator returns a
valid page (a slice for some page number between 1 and num_pages) and
never fails; full pages hold exactly PAGINATOR_VALUE items; a missing or
non-numeric parameter yields page 1; a numeric parameter beyond the last
page yields the last page. -/
theorem C7_pagination (l : List Nat) (param : Option String) :
    (∃ n, 1 ≤ n ∧ n ≤ numPages l.length ∧ getPage l param = pageSlice l n)
    ∧ (getPage l param).length ≤ PAGINATOR_VALUE
    ∧ (∀ n, 1 ≤ n → n < numPages l.length →
        (pageSlice l n).length = PAGINATOR_VALUE)
    ∧ (parsePage param = none → getPage l param = pageSlice l 1)
    ∧ (∀ k : Int, parsePage param = some k → (numPages l.length : Int) < k →
        getPage l param = pageSlice l (numPages l.length)) := by
  obtain ⟨hb1, hb2⟩ := getPageNumber_bounds l.length param
  refine ⟨⟨getPageNumber l.length param, hb1, hb2, rfl⟩, ?_, ?_, ?_, ?_⟩
  · exact List.length_take_le _ _
  · intro n h1 h2
    exact pageSlice_length_of_lt l n h1 h2
  · intro hp
    unfold getPage getPageNumber
    rw [hp]
  · intro k hp hk
    have hnp := numPages_pos l.length
    have hn1 : ¬ (k < 1) := by omega
    unfold getPage getPageNumber
    rw [hp]
    dsimp only
    rw [if_neg hn1, if_pos hk]

/-- C7, witness: on a twenty-five item list, page 99 clamps to the last
page, a non-numeric parameter yields page 1, and page 1 holds exactly ten
items. -/
theorem C7_pagination_witness :
    getPage sampleList (some page99) = pageSlice sampleList (numPages sampleList.length)
    ∧ getPage sampleList (some pageBad) = pageSlice sampleList 1
    ∧ (pageSlice sampleList 1).length = PAGINATOR_VALUE := by
  have h1 := C7_pagination sampleList (some page99)
  have h2 := C7_pagination sampleList (some pageBad)
  exact ⟨h1.2.2.2.2 99 (by decide) (by decide), h2.2.2.2.1 (by decide),
         h1.2.2.1 1 (by decide) (by decide)⟩

/-- C8: each listing's post_list is ordered by descending pub_date and
every entry is annotated with the number of comments whose post is that
post; slicing a page off the ordered list keeps the order. -/
theorem C8_ordering_and_counts (now : Int) (db : DB) (cid : Nat) (viewer : Viewer)
    (slug : String) (uid : Nat) (page : Option String) :
    ((indexPostList now db).Pairwise (fun a b => b.1.pub_date ≤ a.1.pub_date))
    ∧ (∀ x ∈ indexPostList now db, x.2 = commentCount db x.1.id)
    ∧ ((categoryPostList now db cid).Pairwise (fun a b => b.1.pub_date ≤ a.1.pub_date))
    ∧ (∀ x ∈ categoryPostList now db cid, x.2 = commentCount db x.1.id)
    ∧ ((profilePostList viewer now db slug uid).Pairwise
        (fun a b => b.1.pub_date ≤ a.1.pub_date))
    ∧ (∀ x ∈ profilePostList viewer now db slug uid, x.2 = commentCount db x.1.id)
    ∧ ((getPage (indexPostList now db) page).Pairwise
        (fun a b => b.1.pub_date ≤ a.1.pub_date)) := by
  have hidx : (indexPostList now db).Pairwise (fun a b => b.1.pub_date ≤ a.1.pub_date) :=
    pairwise_annotateComments db _ (pairwise_orderByPubDateDesc (get_post_filter now db))
  refine ⟨hidx, annotateComments_count db _,
    pairwise_annotateComments db _ (pairwise_orderByPubDateDesc _),
    annotateComments_count db _,
    pairwise_annotateComments db _ (pairwise_orderByPubDateDesc _),
    annotateComments_count db _,
    List.Pairwise.sublist (pageSlice_sublist _ _) hidx⟩

/-- Published category fixture. -/
def techCat : Category := ⟨1, "Tech", "tech", true⟩

/-- A published past-dated post in the published category, with comments. -/
def post1 : Post :=
  { id := 1
    title := "one"
    text := "body"
    pub_date := 5
    is_published := true
    author := 1
    category := some 1
    location := none }

/-- A later published post in the published category. -/
def post2 : Post :=
  { id := 2
    title := "two"
    text := "body"
    pub_date := 9
    is_published := true
    author := 1
    category := some 1
    location := none }

/-- Comment fixture on post 1. -/
def comment1 : Comment := ⟨1, "hello", 1, 1⟩

/-- A store with one category, two visible posts and one comment. -/
def dbRich : DB := ⟨[alice], [techCat], [], [post1, post2], [comment1]⟩

/-- C8, witness: the concrete global listing is ordered by descending
pub_date and the annotated entry of post 1 carries its comment count. -/
theorem C8_witness :
    (indexPostList 10 dbRich).Pairwise (fun a b => b.1.pub_date ≤ a.1.pub_date)
    ∧ (post1, 1).2 = commentCount dbRich (post1, 1).1.id := by
  have h := C8_ordering_and_counts 10 dbRich 1 Viewer.anonymous aliceName 1 none
  exact ⟨h.1, h.2.1 (post1, 1) (by decide)⟩

/-- C9: deleting a post removes exactly the comments attached to it
(cascade), while deleting a category or a location keeps every post in
existence with all other fields unchanged and only the matching reference
set to null. -/
theorem C9_delete_policies (db : DB) (pid cid lid : Nat) :
    (∀ c ∈ (deletePost db pid).comments, c.post ≠ pid)
    ∧ (∀ c ∈ db.comments, c.post ≠ pid → c ∈ (deletePost db pid).comments)
    ∧ ((deleteCategory db cid).posts.length = db.posts.length)
    ∧ (∀ p ∈ db.posts, ∃ q, q ∈ (deleteCategory db cid).posts ∧ q.id = p.id ∧
        q.title = p.title ∧ q.text = p.text ∧ q.pub_date = p.pub_date ∧
        q.is_published = p.is_published ∧ q.author = p.author ∧
        q.location = p.location ∧
        q.category = (if p.category = some cid then none else p.category))
    ∧ ((deleteLocation db lid).posts.length = db.posts.length)
    ∧ (∀ p ∈ db.posts, ∃ q, q ∈ (deleteLocation db lid).posts ∧ q.id = p.id ∧
        q.title = p.title ∧ q.text = p.text ∧ q.pub_date = p.pub_date ∧
        q.is_published = p.is_published ∧ q.author = p.author ∧
        q.category = p.category ∧
        q.location = (if p.location = some lid then none else p.location)) := by
  have hcposts : (deleteCategory db cid).posts =
      db.posts.map (fun p => if p.category == some cid then { p with category := none } else p) :=
    rfl
  have hlposts : (deleteLocation db lid).posts =
      db.posts.map (fun p => if p.location == some lid then { p with location := none } else p) :=
    rfl
  refine ⟨?_, ?_, ?_, ?_, ?_, ?_⟩
  · intro c hc
    have : c ∈ db.comments.filter (fun c2 => c2.post != pid) := hc
    rw [List.mem_filter] at this
    simpa using this.2
  · intro c hc hne
    show c ∈ db.comments.filter (fun c2 => c2.post != pid)
    rw [List.mem_filter]
    exact ⟨hc, by simpa using hne⟩
  · rw [hcposts, List.length_map]
  · intro p hp
    by_cases h : p.category = some cid
    · refine ⟨{ p with category := none }, ?_, rfl, rfl, rfl, rfl, rfl, rfl, rfl, ?_⟩
      · rw [hcposts]
        refine List.mem_map.mpr ⟨p, hp, ?_⟩
        rw [if_pos (show (p.category == some cid) = true by simpa using h)]
      · rw [if_pos h]
    · refine ⟨p, ?_, rfl, rfl, rfl, rfl, rfl, rfl, rfl, ?_⟩
      · rw [hcposts]
        refine List.mem_map.mpr ⟨p, hp, ?_⟩
        rw [if_neg (show ¬ (p.category == some cid) = true by simpa using h)]
      · rw [if_neg h]
  · rw [hlposts, List.length_map]
  · intro p hp
    by_cases h : p.location = some lid
    · refine ⟨{ p with location := none }, ?_, rfl, rfl, rfl, rfl, rfl, rfl, rfl, ?_⟩
      · rw [hlposts]
        refine List.mem_map.mpr ⟨p, hp, ?_⟩
        rw [if_pos (show (p.location == some lid) = true by simpa using h)]
      · rw [if_pos h]
    · refine ⟨p, ?_, rfl, rfl, rfl, rfl, rfl, rfl, rfl, ?_⟩
      · rw [hlposts]
        refine List.mem_map.mpr ⟨p, hp, ?_⟩
        rw [if_neg (show ¬ (p.location == some lid) = true by simpa using h)]
      · rw [if_neg h]

/-- C9, witness: deleting post 1 removes its comment, deleting post 2
keeps the comment of post 1, and deleting the category keeps both posts. -/
theorem C9_witness :
    comment1 ∈ (deletePost dbRich 2).comments
    ∧ (deleteCategory dbRich 1).posts.length = dbRich.posts.length := by
  have h2 := C9_delete_policies dbRich 2 1 1
  have h1 := C9_delete_policies dbRich 1 1 1
  exact ⟨h2.2.1 comment1 (by decide) (by decide), h1.2.2.1⟩

/-- The post stored after alice submits fd0 to the edit view of her post. -/
def updPost : Post :=
  { id := 1
    title := "x"
    text := "y"
    pub_date := 5
    is_published := true
    author := 1
    category := none
    location := none }

/-- C10: whatever author value the form data carries, a successful create
or edit through the handlers stores the requesting user as author — the
created post's author is the request user, the post saved by the edit view
is stored with the request user as author, the created comment's author is
the request user, and a comment edit keeps the author equal to the request
user. -/
theorem C10_author_is_request_user (db : DB) (fd : PostFormData)
    (cfd : CommentFormData) (pk post_id uid : Nat) (uname : String) :
    (∃ newP, (postCreateView (Viewer.user uid uname) db fd).2.posts =
      db.posts ++ [newP] ∧ newP.author = uid)
    ∧ (∀ p, db.posts.find? (fun q => q.id == pk) = some p → p.author = uid →
        ∀ q ∈ (postUpdateView (Viewer.user uid uname) db pk fd).2.posts,
          q.id = pk → q.author = uid)
    ∧ (∀ p, db.posts.find? (fun q => q.id == pk) = some p →
        ∃ newC, (commentCreateView (Viewer.user uid uname) db pk cfd).2.comments =
          db.comments ++ [newC] ∧ newC.author = uid ∧ newC.post = pk)
    ∧ (∀ c, db.comments.find? (fun q => q.id == pk) = some c → c.author = uid →
        (∀ r ∈ db.comments, r.id = pk → r = c) →
        ∀ q ∈ (commentUpdateView (Viewer.user uid uname) db pk post_id cfd).2.comments,
          q.id = pk → q.author = uid) := by
  refine ⟨⟨_, rfl, rfl⟩, ?_, ?_, ?_⟩
  · intro p hfind hauth q hq hqid
    unfold postUpdateView at hq
    rw [hfind] at hq
    dsimp only at hq
    rw [show (!(Viewer.user uid uname).isUser p.author) = false by
          simp [Viewer.isUser, hauth]] at hq
    rw [if_neg (by simp)] at hq
    dsimp only at hq
    rcases List.mem_map.mp hq with ⟨r, hr, heq⟩
    by_cases hid : r.id = pk
    · rw [← heq, if_pos (show (r.id == pk) = true by simpa using hid)]
    · exfalso
      apply hid
      rw [← heq, if_neg (show ¬ (r.id == pk) = true by simpa using hid)] at hqid
      exact hqid
  · intro p hfind
    unfold commentCreateView
    dsimp only
    rw [hfind]
    exact ⟨_, rfl, rfl, rfl⟩
  · intro c hfind hauth huniq q hq hqid
    unfold commentUpdateView at hq
    rw [hfind] at hq
    dsimp only at hq
    rw [show (!(Viewer.user uid uname).isUser c.author) = false by
          simp [Viewer.isUser, hauth]] at hq
    rw [if_neg (by simp)] at hq
    rw [show (Viewer.user uid uname).isAuthenticated = true from rfl, if_pos rfl] at hq
    dsimp only at hq
    rcases List.mem_map.mp hq with ⟨r, hr, heq⟩
    by_cases hid : r.id = pk
    · have hre : r = c := huniq r hr hid
      rw [← heq, if_pos (show (r.id == pk) = true by simpa using hid)]
      show r.author = uid
      rw [hre]
      exact hauth
    · exfalso
      apply hid
      rw [← heq, if_neg (show ¬ (r.id == pk) = true by simpa using hid)] at hqid
      exact hqid

/-- C10, witness: the post alice saves through the edit view is stored
with alice as author even though the submitted form data names user 2. -/
theorem C10_witness :
    updPost.author = 1 := by
  have h := C10_author_is_request_user dbDraft fd0 cfd0 1 1 1 aliceName
  exact h.2.1 draftPost (by decide) (by decide) updPost (by decide) (by decide)

end Blogicum
